import Mathlib

/-!
Verification of the geospatial aggregation and viewport-culling engine of the
google-maps-example repository, shallowly embedded from the JavaScript sources
(src/GoogleMapApp.js, src/MapboxMapApp.js and the unnamed Mapbox variant).

Coordinates are embedded as `Option Int`: `none` models a missing (undefined)
latitude/longitude, `some 0` a zero one; both are falsy in JavaScript, which is
what the `if (latitude && longitude)` guard in the sources tests.  The sources
key the location map by the template string interpolating latitude and longitude,
which on numeric coordinates identifies exactly the coordinate pair, so the
embedding keys by the pair itself.  JavaScript `Array.prototype.sort` is a
stable sort (ES2019), and a stable sort for a total preorder is unique, so it
is embedded as stable insertion sort parameterised by the comparator.
-/

namespace GoogleMapsExample

/-- The geoCoordinates object of an input record. -/
structure GeoCoordinates where
  latitude : Option Int
  longitude : Option Int
deriving DecidableEq, Repr

/-- The location object of an input record: coordinates plus descriptive fields. -/
structure MapLocation where
  geoCoordinates : GeoCoordinates
  city : String
  state : String
  countryOrRegion : String
deriving DecidableEq, Repr

/-- One raw input observation record, as destructured by the aggregation effect. -/
structure ObservationRecord where
  id : String
  ipAddress : String
  location : MapLocation
deriving DecidableEq, Repr

/-- One entry of the idIpPairs array of a cluster. -/
structure IdIpPair where
  id : String
  ipAddress : String
deriving DecidableEq, Repr

/-- One aggregated location cluster: the object
`\x7b count, idIpPairs, ...location \x7d` built by the aggregation effect. -/
structure LocationCluster where
  geoCoordinates : GeoCoordinates
  city : String
  state : String
  countryOrRegion : String
  count : Nat
  idIpPairs : List IdIpPair
deriving DecidableEq, Repr

/-- JavaScript truthiness of a numeric coordinate: missing (undefined) and 0 are
falsy, every other number is truthy. -/
def truthy : Option Int → Bool
  | none => false
  | some v => decide (v ≠ 0)

/-- The guard `if (latitude && longitude)` of the aggregation loop. -/
def hasValidCoords (r : ObservationRecord) : Bool :=
  truthy r.location.geoCoordinates.latitude && truthy r.location.geoCoordinates.longitude

/-- The fresh map entry `\x7b count: 0, idIpPairs: [], ...location \x7d`. -/
def newCluster (r : ObservationRecord) : LocationCluster :=
  { geoCoordinates := r.location.geoCoordinates
    city := r.location.city
    state := r.location.state
    countryOrRegion := r.location.countryOrRegion
    count := 0
    idIpPairs := [] }

/-- `locationData.count += 1; locationData.idIpPairs.push(\x7b id, ipAddress \x7d)`. -/
def bumpCluster (r : ObservationRecord) (c : LocationCluster) : LocationCluster :=
  { c with count := c.count + 1, idIpPairs := c.idIpPairs ++ [⟨r.id, r.ipAddress⟩] }

/-- JavaScript `Map` get-or-insert followed by the bump, on an insertion-ordered
association list: the first entry with the record's key is updated in place, a
missing key is appended at the end (`Map` preserves insertion order). -/
def bumpFirst (r : ObservationRecord) : List LocationCluster → List LocationCluster
  | [] => [bumpCluster r (newCluster r)]
  | c :: rest =>
    if c.geoCoordinates == r.location.geoCoordinates then bumpCluster r c :: rest
    else c :: bumpFirst r rest

/-- One iteration of `markers.forEach` in the aggregation effect. -/
def insertRecord (m : List LocationCluster) (r : ObservationRecord) : List LocationCluster :=
  if hasValidCoords r then bumpFirst r m else m

/-- The `locationMap` built by the aggregation effect, in insertion order
(as `Array.from(locationMap, ([, value]) => value)` lists it before sorting). -/
def locationMap (records : List ObservationRecord) : List LocationCluster :=
  records.foldl insertRecord []

/-- Stable insertion into a sorted list: the new element is placed after every
existing element `b` with `le b.count a.count` (so equal elements keep their
earlier relative order, as JavaScript's stable sort guarantees). -/
def insertSorted (le : Nat → Nat → Bool) (a : LocationCluster) :
    List LocationCluster → List LocationCluster
  | [] => [a]
  | b :: rest =>
    if le b.count a.count then b :: insertSorted le a rest else a :: b :: rest

/-- Stable sort by count under the comparator `le`, the embedding of
`Array.prototype.sort` with a count comparator. -/
def stableSortBy (le : Nat → Nat → Bool) (l : List LocationCluster) : List LocationCluster :=
  l.foldl (fun acc a => insertSorted le a acc) []

/-- `uniqueLocationsArray` of GoogleMapApp.js and MapboxMapApp.js:
the location map sorted by `(a, b) => a.count - b.count` (ascending). -/
def uniqueLocationsArray (records : List ObservationRecord) : List LocationCluster :=
  stableSortBy (fun x y => decide (x ≤ y)) (locationMap records)

/-- `uniqueLocationsArray` of the unnamed Mapbox variant (part_000):
the location map sorted by `(a, b) => b.count - a.count` (descending). -/
def uniqueLocationsArrayDesc (records : List ObservationRecord) : List LocationCluster :=
  stableSortBy (fun x y => decide (y ≤ x)) (locationMap records)

/-- A bounding region, per the BoundingRegion data model backing the SDK's
LatLngBounds/LngLatBounds: south/north latitude and west/east longitude bounds. -/
structure Bounds where
  south : Int
  north : Int
  west : Int
  east : Int
deriving DecidableEq, Repr

/-- The coordinate pair a cluster is tested and framed at (clusters produced by
the aggregation always carry present coordinates). -/
def latLng (g : GeoCoordinates) : Int × Int :=
  (g.latitude.getD 0, g.longitude.getD 0)

/-- Containment test of the SDK bounds object, inclusive of the boundary. -/
def Bounds.containsPt (b : Bounds) (p : Int × Int) : Bool :=
  decide (b.south ≤ p.1) && decide (p.1 ≤ b.north) &&
    decide (b.west ≤ p.2) && decide (p.2 ≤ b.east)

/-- The `filteredMarkers` computation of the viewport recompute: keep exactly the
markers whose coordinates the current bounds contain. -/
def filteredMarkers (b : Bounds) (allMarkers : List LocationCluster) : List LocationCluster :=
  allMarkers.filter (fun c => b.containsPt (latLng c.geoCoordinates))

/-- The `filteredMarkers` computation of the second MapboxMapApp.js variant,
which additionally re-sorts the filtered result by `(a, b) => b.count - a.count`. -/
def filteredMarkersResorted (b : Bounds) (allMarkers : List LocationCluster) :
    List LocationCluster :=
  stableSortBy (fun x y => decide (y ≤ x)) (filteredMarkers b allMarkers)

/-- A thrown JavaScript runtime error. -/
inductive JsError where
  | typeError
deriving DecidableEq, Repr

/-- The body of the debounced `onBoundsChanged` callback.  The outer option
models `mapRef.current` (none: the ref is null, so `.getBounds()` throws), the
inner one the result of `getBounds()` (none: undefined, so the first
`bounds.contains` call inside the filter throws; an empty marker array never
invokes the filter callback, so it survives and yields the empty visible set).
The sources contain no guard on either. -/
def onBoundsChanged (mapRef : Option (Option Bounds)) (allMarkers : List LocationCluster) :
    Except JsError (List LocationCluster) :=
  match mapRef with
  | none => .error .typeError
  | some none => if allMarkers.isEmpty then .ok [] else .error .typeError
  | some (some b) => .ok (filteredMarkers b allMarkers)

/-- `bounds.extend(location)` on the SDK bounds value: `none` is the
freshly-constructed empty bounds, extension grows the box to enclose the point. -/
def extendBounds : Option Bounds → Int × Int → Option Bounds
  | none, p => some ⟨p.1, p.1, p.2, p.2⟩
  | some b, p => some ⟨min b.south p.1, max b.north p.1, min b.west p.2, max b.east p.2⟩

/-- The initial-framing loop: a fresh bounds value extended with every marker's
coordinates; `none` is the empty sentinel produced from an empty marker array. -/
def initialBounds (allMarkers : List LocationCluster) : Option Bounds :=
  allMarkers.foldl (fun b c => extendBounds b (latLng c.geoCoordinates)) none

/-- GoogleMapApp.js `onLoad`: the fit command handed to the map, `some region`
when `fitBounds` is called, `none` when the `allMarkers.length > 0` guard
skips it. -/
def onLoad (allMarkers : List LocationCluster) : Option (Option Bounds) :=
  if 0 < allMarkers.length then some (initialBounds allMarkers) else none

/-- The fitBounds effect of the Mapbox variants: after the early return when the
map ref is still null, `fitBounds` is called unconditionally, with no guard on
the marker array being empty. -/
def fitBoundsEffect (mapRefPresent : Bool) (allMarkers : List LocationCluster) :
    Option (Option Bounds) :=
  if mapRefPresent then some (initialBounds allMarkers) else none

/-- `circleThreshold` of all variants. -/
def circleThreshold : Nat := 10

/-- `count >= circleThreshold`; also exactly the condition under which the
numeric count label is rendered. -/
def isCrowded (count : Nat) : Bool :=
  decide (circleThreshold ≤ count)

/-- Marker pixel size of the Mapbox variants: dot size 4 below the threshold,
then 16 / 20 / 26 for the three crowded bands. -/
def markerSize (count : Nat) : Nat :=
  if isCrowded count then
    if 1000 < count then 26 else if 100 < count then 20 else 16
  else 4

/-- Marker symbol scale of the Google variant: dot scale 3 below the threshold,
then 10 / 12 / 14 for the three crowded bands. -/
def markerScale (count : Nat) : Nat :=
  if isCrowded count then
    if 1000 < count then 14 else if 100 < count then 12 else 10
  else 3

/-- The default quiescence window of the hand-rolled debounce (part_000,
`timeout = 100`). -/
def debounceTimeout : Nat := 100

/-- Virtual-clock semantics of `clearTimeout(timer); timer = setTimeout(cb, w)`:
for notifications at the given increasing times, the times at which the wrapped
callback actually runs.  A notification schedules a run one window later and is
cancelled exactly when the next notification arrives strictly before that. -/
def fireTimes (window : Nat) : List Nat → List Nat
  | [] => []
  | [t] => [t + window]
  | t₁ :: t₂ :: rest =>
    if t₂ < t₁ + window then fireTimes window (t₂ :: rest)
    else (t₁ + window) :: fireTimes window (t₂ :: rest)

/-- The observable executions of the debounced recompute: the action is applied
at each fire time, so it reads whatever view state is current then. -/
def debounceRuns {α : Type} (window : Nat) (notifs : List Nat) (action : Nat → α) : List α :=
  (fireTimes window notifs).map action

/-- Whether some debounced run fires at or after the teardown time.  The
event-handler effects of the Mapbox variants return no cleanup, so tearing the
component down clears no pending timer and removes no handler: the fire times
are unaffected by the teardown time. -/
def firesAfterTeardown (window : Nat) (notifs : List Nat) (tearTime : Nat) : Bool :=
  (fireTimes window notifs).any (fun ft => decide (tearTime ≤ ft))

/-- The insertion-order list of distinct valid coordinate keys, as first seen in
the input (the key order of the JavaScript `Map`). -/
def addKey (ks : List GeoCoordinates) (r : ObservationRecord) : List GeoCoordinates :=
  if hasValidCoords r then
    if r.location.geoCoordinates ∈ ks then ks else ks ++ [r.location.geoCoordinates]
  else ks

/-- First-seen order of distinct valid coordinate keys of the input records. -/
def firstSeenKeys (records : List ObservationRecord) : List GeoCoordinates :=
  records.foldl addKey []

/-- Total count mass of a cluster list. -/
def sumCounts (l : List LocationCluster) : Nat :=
  (l.map (fun c => c.count)).sum

/-- Number of input records passing the coordinate-truthiness guard. -/
def countValidRecords (records : List ObservationRecord) : Nat :=
  (records.filter hasValidCoords).length

/-- The distinct coordinate pairs among records with valid coordinates. -/
def distinctValidKeys (records : List ObservationRecord) : List GeoCoordinates :=
  ((records.filter hasValidCoords).map (fun r => r.location.geoCoordinates)).dedup

/-- The first input record carrying valid coordinates equal to the given key. -/
def firstRecordAt (records : List ObservationRecord) (g : GeoCoordinates) :
    Option ObservationRecord :=
  records.find? (fun r => hasValidCoords r && (r.location.geoCoordinates == g))

/-! Concrete demonstration values, matching the end-to-end scenario of the spec:
two records at (10, 20), one at (30, 40). -/

/-- Demo coordinate shared by two records. -/
def gA : GeoCoordinates := ⟨some 10, some 20⟩

/-- Demo coordinate held by a single record. -/
def gB : GeoCoordinates := ⟨some 30, some 40⟩

/-- First demo record at `gA`. -/
def rA1 : ObservationRecord := ⟨"id1", "ip1", ⟨gA, "CityA", "StateA", "CountryA"⟩⟩

/-- Second demo record at `gA` (different descriptive fields). -/
def rA2 : ObservationRecord := ⟨"id2", "ip2", ⟨gA, "CityA2", "StateA2", "CountryA2"⟩⟩

/-- Demo record at `gB`. -/
def rB : ObservationRecord := ⟨"id3", "ip3", ⟨gB, "CityB", "StateB", "CountryB"⟩⟩

/-- The demo input record sequence. -/
def demoRecords : List ObservationRecord := [rA1, rA2, rB]

/-- The count-1 cluster the demo input aggregates to at `gB`. -/
def cB : LocationCluster := ⟨gB, "CityB", "StateB", "CountryB", 1, [⟨"id3", "ip3"⟩]⟩

/-- The count-2 cluster the demo input aggregates to at `gA`. -/
def cA : LocationCluster := ⟨gA, "CityA", "StateA", "CountryA", 2, [⟨"id1", "ip1"⟩, ⟨"id2", "ip2"⟩]⟩

/-- A bounding region containing every demo coordinate. -/
def demoBounds : Bounds := ⟨-90, 90, -180, 180⟩

/-! Stable-sort lemmas, generic in the boolean comparator. -/

/-- Inserting an element permutes consing it. -/
theorem insertSorted_perm (le : Nat → Nat → Bool) (a : LocationCluster) :
    ∀ l : List LocationCluster, List.Perm (insertSorted le a l) (a :: l) := by
  intro l
  induction l with
  | nil => simp [insertSorted]
  | cons b rest ih =>
    simp only [insertSorted]
    split
    · exact (ih.cons b).trans (List.Perm.swap a b rest)
    · exact List.Perm.refl _

/-- The foldl of insertions permutes the accumulator followed by the input. -/
theorem foldl_insertSorted_perm (le : Nat → Nat → Bool) :
    ∀ (l acc : List LocationCluster),
      List.Perm (List.foldl (fun acc a => insertSorted le a acc) acc l) (acc ++ l) := by
  intro l
  induction l with
  | nil => intro acc; simp
  | cons a t ih =>
    intro acc
    have h1 := ih (insertSorted le a acc)
    have h2 := (insertSorted_perm le a acc).append_right t
    exact (h1.trans h2).trans List.perm_middle.symm

/-- The stable sort permutes its input. -/
theorem stableSortBy_perm (le : Nat → Nat → Bool) (l : List LocationCluster) :
    List.Perm (stableSortBy le l) l := by
  simpa [stableSortBy] using foldl_insertSorted_perm le l []

/-- Insertion preserves pairwise sortedness under a total transitive comparator. -/
theorem insertSorted_pairwise (le : Nat → Nat → Bool)
    (htot : ∀ x y, le x y = false → le y x = true)
    (htrans : ∀ x y z, le x y = true → le y z = true → le x z = true)
    (a : LocationCluster) :
    ∀ l : List LocationCluster,
      List.Pairwise (fun x y => le x.count y.count = true) l →
      List.Pairwise (fun x y => le x.count y.count = true) (insertSorted le a l) := by
  intro l
  induction l with
  | nil => intro _; simp [insertSorted]
  | cons b rest ih =>
    intro hp
    rw [List.pairwise_cons] at hp
    obtain ⟨hb, hrest⟩ := hp
    simp only [insertSorted]
    split
    · rename_i hle
      rw [List.pairwise_cons]
      refine ⟨?_, ih hrest⟩
      intro x hx
      rcases List.mem_cons.mp ((insertSorted_perm le a rest).mem_iff.mp hx) with rfl | hx'
      · exact hle
      · exact hb x hx'
    · rename_i hle
      have hf : le b.count a.count = false := by
        cases h : le b.count a.count with
        | false => rfl
        | true => exact absurd h hle
      have hab : le a.count b.count = true := htot _ _ hf
      rw [List.pairwise_cons]
      refine ⟨?_, by rw [List.pairwise_cons]; exact ⟨hb, hrest⟩⟩
      intro x hx
      rcases List.mem_cons.mp hx with rfl | hx'
      · exact hab
      · exact htrans _ _ _ hab (hb x hx')

/-- The fold of insertions preserves pairwise sortedness of the accumulator. -/
theorem foldl_insertSorted_pairwise (le : Nat → Nat → Bool)
    (htot : ∀ x y, le x y = false → le y x = true)
    (htrans : ∀ x y z, le x y = true → le y z = true → le x z = true) :
    ∀ (l acc : List LocationCluster),
      List.Pairwise (fun x y => le x.count y.count = true) acc →
      List.Pairwise (fun x y => le x.count y.count = true)
        (List.foldl (fun acc a => insertSorted le a acc) acc l) := by
  intro l
  induction l with
  | nil => intro acc h; simpa using h
  | cons a t ih =>
    intro acc h
    exact ih (insertSorted le a acc) (insertSorted_pairwise le htot htrans a acc h)

/-- The stable sort is pairwise sorted under a total transitive comparator. -/
theorem stableSortBy_pairwise (le : Nat → Nat → Bool)
    (htot : ∀ x y, le x y = false → le y x = true)
    (htrans : ∀ x y z, le x y = true → le y z = true → le x z = true)
    (l : List LocationCluster) :
    List.Pairwise (fun x y => le x.count y.count = true) (stableSortBy le l) :=
  foldl_insertSorted_pairwise le htot htrans l [] (by simp)

/-- Filtering on an exact count commutes with stable insertion: the inserted
element comes out after every already-present element of the same count. -/
theorem insertSorted_filter_count (le : Nat → Nat → Bool)
    (href : ∀ x, le x x = true) (a : LocationCluster) (n : Nat) :
    ∀ l : List LocationCluster,
      List.Pairwise (fun x y => le x.count y.count = true) l →
      (insertSorted le a l).filter (fun c => decide (c.count = n)) =
        l.filter (fun c => decide (c.count = n)) ++ (if a.count = n then [a] else []) := by
  intro l
  induction l with
  | nil =>
    intro _
    by_cases han : a.count = n <;> simp [insertSorted, han]
  | cons b rest ih =>
    intro hp
    rw [List.pairwise_cons] at hp
    obtain ⟨hb, hrest⟩ := hp
    simp only [insertSorted]
    split
    · rename_i hle
      rw [List.filter_cons, List.filter_cons, ih hrest]
      by_cases hbn : b.count = n <;> simp [hbn]
    · rename_i hle
      have hf : le b.count a.count = false := by
        cases h : le b.count a.count with
        | false => rfl
        | true => exact absurd h hle
      by_cases han : a.count = n
      · have hnil : (b :: rest).filter (fun c => decide (c.count = n)) = [] := by
          rw [List.filter_eq_nil_iff]
          intro x hx
          simp only [decide_eq_true_eq]
          intro hxn
          rcases List.mem_cons.mp hx with rfl | hx'
          · have hba : x.count = a.count := hxn.trans han.symm
            simp [hba, href] at hf
          · have h1 := hb x hx'
            have hxa : x.count = a.count := hxn.trans han.symm
            rw [hxa] at h1
            rw [h1] at hf
            exact Bool.noConfusion hf
        rw [List.filter_cons]
        simp [han, hnil]
      · rw [List.filter_cons]
        simp [han]

/-- Filtering on an exact count commutes with the insertion fold. -/
theorem foldl_insertSorted_filter_count (le : Nat → Nat → Bool)
    (href : ∀ x, le x x = true)
    (htot : ∀ x y, le x y = false → le y x = true)
    (htrans : ∀ x y z, le x y = true → le y z = true → le x z = true) (n : Nat) :
    ∀ (l acc : List LocationCluster),
      List.Pairwise (fun x y => le x.count y.count = true) acc →
      (List.foldl (fun acc a => insertSorted le a acc) acc l).filter
          (fun c => decide (c.count = n)) =
        acc.filter (fun c => decide (c.count = n)) ++ l.filter (fun c => decide (c.count = n)) := by
  intro l
  induction l with
  | nil => intro acc _; simp
  | cons a t ih =>
    intro acc hacc
    have hstep := ih (insertSorted le a acc) (insertSorted_pairwise le htot htrans a acc hacc)
    rw [List.foldl_cons, hstep, insertSorted_filter_count le href a n acc hacc,
      List.filter_cons, List.append_assoc]
    by_cases han : a.count = n <;> simp [han]

/-- Stable sorting by count never reorders elements of one exact count. -/
theorem stableSortBy_filter_count (le : Nat → Nat → Bool)
    (href : ∀ x, le x x = true)
    (htot : ∀ x y, le x y = false → le y x = true)
    (htrans : ∀ x y z, le x y = true → le y z = true → le x z = true)
    (l : List LocationCluster) (n : Nat) :
    (stableSortBy le l).filter (fun c => decide (c.count = n)) =
      l.filter (fun c => decide (c.count = n)) := by
  simpa [stableSortBy] using
    foldl_insertSorted_filter_count le href htot htrans n l [] (by simp)

/-! Count-mass and key lemmas about the aggregation map. -/

/-- Each processed valid record adds exactly one to the total count mass. -/
theorem sumCounts_bumpFirst (r : ObservationRecord) :
    ∀ m : List LocationCluster, sumCounts (bumpFirst r m) = sumCounts m + 1 := by
  intro m
  induction m with
  | nil => simp [bumpFirst, sumCounts, bumpCluster, newCluster]
  | cons c rest ih =>
    simp only [bumpFirst]
    split
    · simp [sumCounts, bumpCluster]
      omega
    · simp only [sumCounts, List.map_cons, List.sum_cons] at ih ⊢
      omega

/-- Count mass of the fold equals the accumulator's plus the valid records. -/
theorem sumCounts_foldl_insertRecord :
    ∀ (rs : List ObservationRecord) (m : List LocationCluster),
      sumCounts (List.foldl insertRecord m rs) = sumCounts m + countValidRecords rs := by
  intro rs
  induction rs with
  | nil => intro m; simp [countValidRecords]
  | cons r t ih =>
    intro m
    by_cases h : hasValidCoords r
    · rw [List.foldl_cons]
      rw [show insertRecord m r = bumpFirst r m from by simp [insertRecord, h]]
      rw [ih (bumpFirst r m), sumCounts_bumpFirst r m]
      simp [countValidRecords, List.filter_cons, h]
      omega
    · rw [List.foldl_cons]
      rw [show insertRecord m r = m from by simp [insertRecord, h]]
      rw [ih m]
      simp [countValidRecords, List.filter_cons, h]

/-- Permuting a cluster list preserves its count mass. -/
theorem sumCounts_perm {l₁ l₂ : List LocationCluster} (h : List.Perm l₁ l₂) :
    sumCounts l₁ = sumCounts l₂ := by
  simpa [sumCounts] using (h.map (fun c => c.count)).sum_eq

/-- Records failing the coordinate guard are invisible to the aggregation fold. -/
theorem foldl_insertRecord_filter_valid :
    ∀ (rs : List ObservationRecord) (m : List LocationCluster),
      List.foldl insertRecord m (rs.filter hasValidCoords) = List.foldl insertRecord m rs := by
  intro rs
  induction rs with
  | nil => intro m; simp
  | cons r t ih =>
    intro m
    by_cases h : hasValidCoords r
    · simp only [List.filter_cons, h, if_true, List.foldl_cons]
      exact ih (insertRecord m r)
    · simp only [List.filter_cons, h, Bool.false_eq_true, if_false, List.foldl_cons]
      rw [show insertRecord m r = m from by simp [insertRecord, h]]
      exact ih m

/-- Bumping preserves the key list when the key is present and appends it
otherwise, mirroring JavaScript `Map` get-or-insert. -/
theorem bumpFirst_keys (r : ObservationRecord) :
    ∀ m : List LocationCluster,
      (bumpFirst r m).map (fun c => c.geoCoordinates) =
        if r.location.geoCoordinates ∈ m.map (fun c => c.geoCoordinates) then
          m.map (fun c => c.geoCoordinates)
        else m.map (fun c => c.geoCoordinates) ++ [r.location.geoCoordinates] := by
  intro m
  induction m with
  | nil => simp [bumpFirst, bumpCluster, newCluster]
  | cons c rest ih =>
    simp only [bumpFirst]
    by_cases h : c.geoCoordinates = r.location.geoCoordinates
    · simp [h, bumpCluster]
    · have hne : (c.geoCoordinates == r.location.geoCoordinates) = false := by
        simp [h]
      rw [hne]
      simp only [Bool.false_eq_true, if_false, List.map_cons, ih]
      have hrc : ¬ r.location.geoCoordinates = c.geoCoordinates := fun hh => h hh.symm
      by_cases hmem : r.location.geoCoordinates ∈ rest.map (fun c => c.geoCoordinates)
      · simp [hmem, hrc]
      · simp [hmem, hrc]

/-- The key list of the aggregation fold is the addKey fold of the input. -/
theorem foldl_insertRecord_keys :
    ∀ (rs : List ObservationRecord) (m : List LocationCluster),
      (List.foldl insertRecord m rs).map (fun c => c.geoCoordinates) =
        List.foldl addKey (m.map (fun c => c.geoCoordinates)) rs := by
  intro rs
  induction rs with
  | nil => intro m; simp
  | cons r t ih =>
    intro m
    rw [List.foldl_cons, List.foldl_cons]
    by_cases h : hasValidCoords r
    · rw [show insertRecord m r = bumpFirst r m from by simp [insertRecord, h]]
      rw [ih (bumpFirst r m), bumpFirst_keys r m]
      rw [show addKey (m.map (fun c => c.geoCoordinates)) r =
          (if r.location.geoCoordinates ∈ m.map (fun c => c.geoCoordinates) then
            m.map (fun c => c.geoCoordinates)
          else m.map (fun c => c.geoCoordinates) ++ [r.location.geoCoordinates]) from by
        simp [addKey, h]]
    · rw [show insertRecord m r = m from by simp [insertRecord, h]]
      rw [show addKey (m.map (fun c => c.geoCoordinates)) r = m.map (fun c => c.geoCoordinates)
          from by simp [addKey, h]]
      exact ih m

/-- The location map's keys are exactly the first-seen valid keys, in order. -/
theorem locationMap_keys (records : List ObservationRecord) :
    (locationMap records).map (fun c => c.geoCoordinates) = firstSeenKeys records := by
  simpa [locationMap, firstSeenKeys] using foldl_insertRecord_keys records []

/-- Adding a key preserves distinctness of the key list. -/
theorem addKey_nodup {ks : List GeoCoordinates} (r : ObservationRecord) (h : ks.Nodup) :
    (addKey ks r).Nodup := by
  unfold addKey
  split
  · split
    · exact h
    · rename_i hmem
      exact h.append (List.nodup_singleton _) (by simp [hmem])
  · exact h

/-- The addKey fold keeps the key list distinct. -/
theorem foldl_addKey_nodup :
    ∀ (rs : List ObservationRecord) (ks : List GeoCoordinates),
      ks.Nodup → (List.foldl addKey ks rs).Nodup := by
  intro rs
  induction rs with
  | nil => intro ks h; simpa using h
  | cons r t ih => intro ks h; exact ih (addKey ks r) (addKey_nodup r h)

/-- First-seen keys are pairwise distinct. -/
theorem firstSeenKeys_nodup (records : List ObservationRecord) :
    (firstSeenKeys records).Nodup :=
  foldl_addKey_nodup records [] (by simp)

/-- Membership in an addKey step. -/
theorem mem_addKey {ks : List GeoCoordinates} {r : ObservationRecord} {g : GeoCoordinates} :
    g ∈ addKey ks r ↔ g ∈ ks ∨ (hasValidCoords r = true ∧ g = r.location.geoCoordinates) := by
  unfold addKey
  by_cases h : hasValidCoords r
  · by_cases hmem : r.location.geoCoordinates ∈ ks
    · simp only [h, if_true, hmem]
      constructor
      · intro hg; exact Or.inl hg
      · rintro (hg | ⟨-, rfl⟩)
        · exact hg
        · exact hmem
    · simp [h, hmem]
  · simp [h]

/-- Membership in the addKey fold: an element is either already present or the
key of some valid record of the input. -/
theorem mem_foldl_addKey :
    ∀ (rs : List ObservationRecord) (ks : List GeoCoordinates) (g : GeoCoordinates),
      g ∈ List.foldl addKey ks rs ↔
        g ∈ ks ∨ g ∈ (rs.filter hasValidCoords).map (fun r => r.location.geoCoordinates) := by
  intro rs
  induction rs with
  | nil => intro ks g; simp
  | cons r t ih =>
    intro ks g
    rw [List.foldl_cons, ih (addKey ks r) g, mem_addKey]
    by_cases h : hasValidCoords r
    · simp only [List.filter_cons, h, if_true, List.map_cons, List.mem_cons]
      tauto
    · simp only [List.filter_cons, h, Bool.false_eq_true, if_false, false_and, and_false]
      tauto

/-- Any member of a bumped map either descends from an existing entry with the
same key and descriptive fields, or is the freshly inserted entry carrying the
record's location fields (only possible when the key was absent). -/
theorem mem_bumpFirst (r : ObservationRecord) :
    ∀ (m : List LocationCluster) (c : LocationCluster), c ∈ bumpFirst r m →
      (∃ c₀ ∈ m, c₀.geoCoordinates = c.geoCoordinates ∧ c₀.city = c.city ∧
        c₀.state = c.state ∧ c₀.countryOrRegion = c.countryOrRegion) ∨
      (r.location.geoCoordinates ∉ m.map (fun x => x.geoCoordinates) ∧
        c.geoCoordinates = r.location.geoCoordinates ∧ c.city = r.location.city ∧
        c.state = r.location.state ∧ c.countryOrRegion = r.location.countryOrRegion) := by
  intro m
  induction m with
  | nil =>
    intro c hc
    simp only [bumpFirst, List.mem_singleton] at hc
    subst hc
    exact Or.inr (by simp [bumpCluster, newCluster])
  | cons b rest ih =>
    intro c hc
    simp only [bumpFirst] at hc
    by_cases h : b.geoCoordinates = r.location.geoCoordinates
    · rw [if_pos (by simp [h])] at hc
      rcases List.mem_cons.mp hc with rfl | hc'
      · exact Or.inl ⟨b, List.mem_cons_self b rest, by simp [bumpCluster]⟩
      · exact Or.inl ⟨c, List.mem_cons_of_mem b hc', by simp⟩
    · rw [if_neg (by simp [h])] at hc
      rcases List.mem_cons.mp hc with rfl | hc'
      · exact Or.inl ⟨c, List.mem_cons_self c rest, by simp⟩
      · rcases ih c hc' with ⟨c₀, hc₀, hrest⟩ | ⟨hnot, hrest⟩
        · exact Or.inl ⟨c₀, List.mem_cons_of_mem b hc₀, hrest⟩
        · refine Or.inr ⟨?_, hrest⟩
          simp only [List.map_cons, List.mem_cons]
          rintro (hh | hh)
          · exact h hh.symm
          · exact hnot hh

/-- Descriptive provenance of the aggregation fold: every cluster either
descends from an accumulator entry with its key, or its key is new to the
accumulator and its descriptive fields are those of the first valid input
record at that key. -/
theorem mem_foldl_insertRecord :
    ∀ (rs : List ObservationRecord) (m : List LocationCluster) (c : LocationCluster),
      c ∈ List.foldl insertRecord m rs →
      (∃ c₀ ∈ m, c₀.geoCoordinates = c.geoCoordinates ∧ c₀.city = c.city ∧
        c₀.state = c.state ∧ c₀.countryOrRegion = c.countryOrRegion) ∨
      (c.geoCoordinates ∉ m.map (fun x => x.geoCoordinates) ∧
        ∃ r₀, firstRecordAt rs c.geoCoordinates = some r₀ ∧
          c.city = r₀.location.city ∧ c.state = r₀.location.state ∧
          c.countryOrRegion = r₀.location.countryOrRegion) := by
  intro rs
  induction rs with
  | nil =>
    intro m c hc
    simp only [List.foldl_nil] at hc
    exact Or.inl ⟨c, hc, by simp⟩
  | cons r t ih =>
    intro m c hc
    rw [List.foldl_cons] at hc
    by_cases hval : hasValidCoords r
    · rw [show insertRecord m r = bumpFirst r m from by simp [insertRecord, hval]] at hc
      rcases ih (bumpFirst r m) c hc with ⟨c₀, hc₀, hgeo, hcity, hstate, hcountry⟩ |
        ⟨hnot, r₀, hfind, hdesc⟩
      · rcases mem_bumpFirst r m c₀ hc₀ with ⟨c₁, hc₁, hgeo₁, hcity₁, hstate₁, hcountry₁⟩ |
          ⟨hnew, hgeo₁, hcity₁, hstate₁, hcountry₁⟩
        · exact Or.inl ⟨c₁, hc₁, hgeo₁.trans hgeo, hcity₁.trans hcity,
            hstate₁.trans hstate, hcountry₁.trans hcountry⟩
        · refine Or.inr ⟨by rw [← hgeo, hgeo₁]; exact hnew, r, ?_, by rw [← hcity, hcity₁],
            by rw [← hstate, hstate₁], by rw [← hcountry, hcountry₁]⟩
          have hkey : c.geoCoordinates = r.location.geoCoordinates := by rw [← hgeo, hgeo₁]
          simp [firstRecordAt, List.find?_cons_of_pos, hval, hkey]
      · have hkeys := bumpFirst_keys r m
        have hmemr : r.location.geoCoordinates ∈
            (bumpFirst r m).map (fun x => x.geoCoordinates) := by
          rw [hkeys]
          split <;> simp_all
        have hsub : ∀ g, g ∈ m.map (fun x => x.geoCoordinates) →
            g ∈ (bumpFirst r m).map (fun x => x.geoCoordinates) := by
          intro g hg
          rw [hkeys]
          split <;> simp [hg]
        have hnotm : c.geoCoordinates ∉ m.map (fun x => x.geoCoordinates) :=
          fun hh => hnot (hsub _ hh)
        have hner : ¬ (r.location.geoCoordinates == c.geoCoordinates) = true := by
          intro hh
          have hcg : c.geoCoordinates = r.location.geoCoordinates := (beq_iff_eq.mp hh).symm
          rw [hcg] at hnot
          exact hnot hmemr
        refine Or.inr ⟨hnotm, r₀, ?_, hdesc⟩
        rw [← hfind]
        simp only [firstRecordAt]
        rw [List.find?_cons_of_neg]
        simp only [Bool.and_eq_true, not_and]
        intro _
        exact hner
    · rw [show insertRecord m r = m from by simp [insertRecord, hval]] at hc
      rcases ih m c hc with hl | ⟨hnot, r₀, hfind, hdesc⟩
      · exact Or.inl hl
      · refine Or.inr ⟨hnot, r₀, ?_, hdesc⟩
        rw [← hfind]
        simp only [firstRecordAt]
        rw [List.find?_cons_of_neg]
        simp [hval]

/-! Debounce lemmas. -/

/-- Within one burst (each notification arriving before the previous pending
execution), the debounce fires exactly once, one window after the last
notification. -/
theorem fireTimes_burst (window : Nat) :
    ∀ (notifs : List Nat) (hne : notifs ≠ []),
      List.Chain' (fun a b => a ≤ b ∧ b < a + window) notifs →
      fireTimes window notifs = [notifs.getLast hne + window] := by
  intro notifs
  induction notifs with
  | nil => intro hne; exact absurd rfl hne
  | cons t rest ih =>
    intro hne hchain
    cases rest with
    | nil => simp [fireTimes]
    | cons t₂ rest₂ =>
      rw [List.chain'_cons] at hchain
      obtain ⟨⟨hle, hlt⟩, hchain₂⟩ := hchain
      have hne₂ : (t₂ :: rest₂) ≠ [] := by simp
      rw [show fireTimes window (t :: t₂ :: rest₂) = fireTimes window (t₂ :: rest₂) from by
        simp [fireTimes, hlt]]
      rw [ih hne₂ hchain₂]
      rw [List.getLast_cons hne₂]

/-! Claim theorems. -/

/-- C1 counterexample: the unnamed Mapbox variant sorts its aggregate by
`(a, b) => b.count - a.count`, so on the demo input its output counts are
[2, 1] and the ascending-order claim fails at the adjacent pair. -/
theorem C1_counterexample :
    ¬ List.Chain' (fun a b => a.count ≤ b.count) (uniqueLocationsArrayDesc demoRecords) := by
  rw [show uniqueLocationsArrayDesc demoRecords = [cA, cB] from by decide]
  simp [List.chain'_cons, cA, cB]

/-- C1 (amended): the aggregates of GoogleMapApp.js and MapboxMapApp.js are
sorted ascending by count at every adjacent pair; the unnamed Mapbox variant's
aggregate is sorted descending instead. -/
theorem C1_sorted_by_count (records : List ObservationRecord) :
    List.Chain' (fun a b => a.count ≤ b.count) (uniqueLocationsArray records) ∧
    List.Chain' (fun a b => b.count ≤ a.count) (uniqueLocationsArrayDesc records) := by
  constructor
  · have hp := stableSortBy_pairwise (fun x y => decide (x ≤ y))
      (by intro x y h; simp at h ⊢; omega)
      (by intro x y z h1 h2; simp at h1 h2 ⊢; omega) (locationMap records)
    exact (hp.imp (by intro a b h; simpa using h)).chain'
  · have hp := stableSortBy_pairwise (fun x y => decide (y ≤ x))
      (by intro x y h; simp at h ⊢; omega)
      (by intro x y z h1 h2; simp at h1 h2 ⊢; omega) (locationMap records)
    exact (hp.imp (by intro a b h; simpa using h)).chain'

/-- C2 counterexample: the second MapboxMapApp.js variant re-sorts the filtered
markers descending by count, so with both demo clusters visible the result
[cA, cB] is not a subsequence of the input [cB, cA]. -/
theorem C2_counterexample :
    ¬ List.Sublist (filteredMarkersResorted demoBounds [cB, cA]) [cB, cA] := by
  decide

/-- C2 (amended): the plain viewport filter (GoogleMapApp.js and the unnamed
Mapbox variant) returns an order-preserving subsequence keeping every cluster
the region contains; the second MapboxMapApp.js variant instead returns a
permutation of that filter re-sorted descending by count. -/
theorem C2_filter_subsequence (b : Bounds) (clusters : List LocationCluster) :
    List.Sublist (filteredMarkers b clusters) clusters ∧
    (∀ c, c ∈ clusters → b.containsPt (latLng c.geoCoordinates) = true →
      c ∈ filteredMarkers b clusters) ∧
    List.Perm (filteredMarkersResorted b clusters) (filteredMarkers b clusters) ∧
    List.Chain' (fun x y => y.count ≤ x.count) (filteredMarkersResorted b clusters) := by
  refine ⟨List.filter_sublist clusters, ?_, stableSortBy_perm _ _, ?_⟩
  · intro c hc hin
    exact List.mem_filter.mpr ⟨hc, hin⟩
  · have hp := stableSortBy_pairwise (fun x y => decide (y ≤ x))
      (by intro x y h; simp at h ⊢; omega)
      (by intro x y z h1 h2; simp at h1 h2 ⊢; omega) (filteredMarkers b clusters)
    exact (hp.imp (by intro x y h; simpa using h)).chain'

/-- C2 witness: a concretely contained cluster is kept by the filter. -/
theorem C2_witness : cB ∈ filteredMarkers demoBounds [cB, cA] :=
  (C2_filter_subsequence demoBounds [cB, cA]).2.1 cB (by decide) (by decide)

/-- C3 counterexample: with the map reference gone, the recompute callback does
not produce an empty visible set — it throws. -/
theorem C3_counterexample :
    onBoundsChanged none ([] : List LocationCluster) ≠ Except.ok [] := by
  simp [onBoundsChanged]

/-- C3 (amended): when the map reference is unavailable the recompute throws a
TypeError for every marker list; when the map is present but its bounds are
unavailable it throws for every non-empty marker list, and only the vacuous
empty-marker case yields the empty visible set. -/
theorem C3_unavailable_region_throws (markers : List LocationCluster) (c : LocationCluster) :
    onBoundsChanged none markers = Except.error JsError.typeError ∧
    onBoundsChanged (some none) (c :: markers) = Except.error JsError.typeError ∧
    onBoundsChanged (some none) ([] : List LocationCluster) = Except.ok [] := by
  refine ⟨rfl, ?_, rfl⟩
  simp [onBoundsChanged]

/-- C4: the aggregate's total count mass equals the number of records passing
the coordinate-truthiness guard (in both sort variants), and records failing
the guard leave the aggregate untouched. -/
theorem C4_count_conservation (records : List ObservationRecord) :
    sumCounts (uniqueLocationsArray records) = countValidRecords records ∧
    sumCounts (uniqueLocationsArrayDesc records) = countValidRecords records ∧
    uniqueLocationsArray records = uniqueLocationsArray (records.filter hasValidCoords) := by
  have h1 : sumCounts (locationMap records) = countValidRecords records := by
    have := sumCounts_foldl_insertRecord records []
    simpa [locationMap, sumCounts] using this
  refine ⟨?_, ?_, ?_⟩
  · unfold uniqueLocationsArray
    rw [sumCounts_perm (stableSortBy_perm _ _)]
    exact h1
  · unfold uniqueLocationsArrayDesc
    rw [sumCounts_perm (stableSortBy_perm _ _)]
    exact h1
  · unfold uniqueLocationsArray locationMap
    rw [foldl_insertRecord_filter_valid]

/-- C5: the aggregate has one cluster per distinct valid coordinate pair, and
every cluster's descriptive fields come from the first valid record at its
coordinate key. -/
theorem C5_uniqueness_first_fields (records : List ObservationRecord) :
    (uniqueLocationsArray records).length = (distinctValidKeys records).length ∧
    ∀ c, c ∈ uniqueLocationsArray records →
      ∃ r₀, firstRecordAt records c.geoCoordinates = some r₀ ∧
        c.city = r₀.location.city ∧ c.state = r₀.location.state ∧
        c.countryOrRegion = r₀.location.countryOrRegion := by
  constructor
  · unfold uniqueLocationsArray
    rw [(stableSortBy_perm _ _).length_eq]
    have hkeys := locationMap_keys records
    have hlen1 : (locationMap records).length = (firstSeenKeys records).length := by
      rw [← hkeys, List.length_map]
    rw [hlen1]
    have hnodup1 := firstSeenKeys_nodup records
    have hnodup2 : (distinctValidKeys records).Nodup := List.nodup_dedup _
    have hmem : ∀ g, g ∈ firstSeenKeys records ↔ g ∈ distinctValidKeys records := by
      intro g
      rw [show firstSeenKeys records = List.foldl addKey [] records from rfl,
        mem_foldl_addKey records [] g]
      simp [distinctValidKeys, List.mem_dedup]
    exact ((List.perm_ext_iff_of_nodup hnodup1 hnodup2).mpr hmem).length_eq
  · intro c hc
    have hmem : c ∈ List.foldl insertRecord [] records := by
      have := (stableSortBy_perm (fun x y => decide (x ≤ y)) (locationMap records)).mem_iff.mp hc
      simpa [locationMap] using this
    rcases mem_foldl_insertRecord records [] c hmem with ⟨c₀, hc₀, -⟩ | ⟨-, r₀, hfind, hdesc⟩
    · exact absurd hc₀ (List.not_mem_nil c₀)
    · exact ⟨r₀, hfind, hdesc⟩

/-- C5 witness: on the demo input the count-1 cluster at (30, 40) draws its
descriptive fields from the record that first carried that coordinate. -/
theorem C5_witness :
    ∃ r₀, firstRecordAt demoRecords cB.geoCoordinates = some r₀ ∧
      cB.city = r₀.location.city ∧ cB.state = r₀.location.state ∧
      cB.countryOrRegion = r₀.location.countryOrRegion :=
  (C5_uniqueness_first_fields demoRecords).2 cB (by decide)

/-- C6: density tiers — below the threshold the marker is the minimal dot with
no label; in [10, 100] it is labeled at band-1 size; in (100, 1000] at band-2
size; above 1000 at band-3 size (Mapbox pixel sizes and Google scales alike). -/
theorem C6_density_tiers (count : Nat) (h : 0 < count) :
    (count < circleThreshold → isCrowded count = false ∧ markerSize count = 4 ∧
      markerScale count = 3) ∧
    (circleThreshold ≤ count → count ≤ 100 → isCrowded count = true ∧
      markerSize count = 16 ∧ markerScale count = 10) ∧
    (100 < count → count ≤ 1000 → isCrowded count = true ∧
      markerSize count = 20 ∧ markerScale count = 12) ∧
    (1000 < count → isCrowded count = true ∧ markerSize count = 26 ∧
      markerScale count = 14) := by
  refine ⟨fun h1 => ?_, fun h1 h2 => ?_, fun h1 h2 => ?_, fun h1 => ?_⟩ <;>
    simp only [isCrowded, markerSize, markerScale, circleThreshold] at * <;>
    split_ifs <;> simp_all <;> omega

/-- C6 witness: count 150 is labeled at band 2. -/
theorem C6_witness :
    isCrowded 150 = true ∧ markerSize 150 = 20 ∧ markerScale 150 = 12 :=
  (C6_density_tiers 150 (by decide)).2.2.1 (by decide) (by decide)

/-- C7: trailing-edge debounce — a burst of notifications, each arriving before
the previously scheduled run, collapses to exactly one execution, one window
after the last notification, applying the action at that execution time. -/
theorem C7_debounce_collapse {α : Type} (window : Nat) (notifs : List Nat) (action : Nat → α)
    (hne : notifs ≠ [])
    (hburst : List.Chain' (fun a b => a ≤ b ∧ b < a + window) notifs) :
    debounceRuns window notifs action = [action (notifs.getLast hne + window)] := by
  unfold debounceRuns
  rw [fireTimes_burst window notifs hne hburst]
  simp

/-- C7 witness: three notifications at 0, 50, 90 with the default window 100
collapse to one run at time 190. -/
theorem C7_witness : debounceRuns 100 [0, 50, 90] (fun t => t) = [190] := by
  have h := C7_debounce_collapse 100 [0, 50, 90] (fun t => t) (by simp)
    (by simp [List.chain'_cons])
  simpa [List.getLast] using h

/-- C8 counterexample: the Mapbox fitBounds effect calls fitBounds even for an
empty cluster list, handing it the empty sentinel region instead of skipping. -/
theorem C8_counterexample :
    fitBoundsEffect true ([] : List LocationCluster) = some none ∧
    fitBoundsEffect true ([] : List LocationCluster) ≠ none := by
  decide

/-- C8 (amended): an empty cluster list frames to the empty sentinel region;
GoogleMapApp.js skips its fit-view call behind the length guard, but the Mapbox
variants attempt fitBounds unconditionally once the map ref exists, empty
region included. -/
theorem C8_empty_framing :
    initialBounds ([] : List LocationCluster) = none ∧
    onLoad ([] : List LocationCluster) = none ∧
    fitBoundsEffect true ([] : List LocationCluster) = some none := by
  decide

/-- C9 counterexample: a notification at time 0 with window 100 and a teardown
at time 50 — the pending debounced callback still fires (at 100), after the
teardown. -/
theorem C9_counterexample : firesAfterTeardown 100 [0] 50 = true := by
  decide

/-- C9 (amended): nothing cancels the pending timer at teardown (the effects
return no cleanup), so a pending recompute still fires one window after its
notification even when teardown came first; the fired callback then hits the
cleared map reference and throws, so no visible set is written. -/
theorem C9_stale_callback (window t d : Nat) (hd : d ≤ t + window)
    (markers : List LocationCluster) :
    fireTimes window [t] = [t + window] ∧
    firesAfterTeardown window [t] d = true ∧
    onBoundsChanged none markers = Except.error JsError.typeError := by
  refine ⟨rfl, ?_, rfl⟩
  simp [firesAfterTeardown, fireTimes, hd]

/-- C9 witness: teardown at 60, notification at 0, window 100. -/
theorem C9_witness :
    fireTimes 100 [0] = [100] ∧ firesAfterTeardown 100 [0] 60 = true ∧
    onBoundsChanged none ([] : List LocationCluster) = Except.error JsError.typeError :=
  C9_stale_callback 100 0 60 (by decide) []

/-- C10: the count sort is stable — restricted to any one count value, the
sorted aggregate lists clusters exactly in location-map order, and the
location map's keys are in first-seen input order. -/
theorem C10_stable_ties (records : List ObservationRecord) (n : Nat) :
    (uniqueLocationsArray records).filter (fun c => decide (c.count = n)) =
      (locationMap records).filter (fun c => decide (c.count = n)) ∧
    (locationMap records).map (fun c => c.geoCoordinates) = firstSeenKeys records := by
  refine ⟨?_, locationMap_keys records⟩
  exact stableSortBy_filter_count (fun x y => decide (x ≤ y))
    (by intro x; simp)
    (by intro x y h; simp at h ⊢; omega)
    (by intro x y z h1 h2; simp at h1 h2 ⊢; omega)
    (locationMap records) n

end GoogleMapsExample
